import Mathlib

/-!
# PCjs CPU definitions (PC8080 and PDP11 variants)

A shallow embedding of `modules/pc8080/lib/cpudef.js` and `modules/pdp11/lib/cpudef.js`:
the processor-status masks, the result-register flag formulas, the parity table, the
control-flag encodings and the opcode tables, and of `setBinding` of
`modules/pdp11/lib/panel.js`, followed by the properties proved about them.

JavaScript numbers are embedded as `Nat`.  Every bitwise expression of the source ends in an
AND with a non-negative mask below `2^17`, so the 32-bit truncation performed by the
JavaScript bitwise operators never changes a result (`land_wrap32` and `xor_land_wrap32`
below make that precise).
-/

/-! ## modules/pc8080/lib/cpudef.js -/

namespace CPUDef

/-- CPU model number (supported). -/
def MODEL_8080 : Nat := 8080

/-- Marks an invalid physical address. -/
def ADDR_INVALID : Int := -1

namespace PS

/-- bit 0: Carry flag -/
def CF : Nat := 0x0001
/-- bit 1: reserved, always set -/
def BIT1 : Nat := 0x0002
/-- bit 2: Parity flag -/
def PF : Nat := 0x0004
/-- bit 3: reserved, always clear -/
def BIT3 : Nat := 0x0008
/-- bit 4: Auxiliary Carry flag -/
def AF : Nat := 0x0010
/-- bit 5: reserved, always clear -/
def BIT5 : Nat := 0x0020
/-- bit 6: Zero flag -/
def ZF : Nat := 0x0040
/-- bit 7: Sign flag -/
def SF : Nat := 0x0080
/-- CF, PF, AF, ZF, SF -/
def ALL : Nat := 0x00D5
/-- The low byte of the status word. -/
def MASK : Nat := 0x00FF
/-- bit 9: Interrupt flag (for internal use only) -/
def IF : Nat := 0x0200
/-- bit 11: Overflow flag (for internal use only) -/
def OF : Nat := 0x0800

/-- Some PS flags are stored directly in regPS, hence the "direct" designation. -/
def DIRECT : Nat := IF

/-- PS "arithmetic" flags are NOT stored in regPS; they are maintained across separate
result registers, hence the "indirect" designation. -/
def INDIRECT : Nat := CF ||| PF ||| AF ||| ZF ||| SF ||| OF

/-- These are the default "always set" PS bits for the 8080. -/
def SET : Nat := BIT1

/-- The properties of the `CPUDef.PS` object, in the order the source defines them. -/
def fields : List (String × Nat) :=
  [("CF", CF), ("BIT1", BIT1), ("PF", PF), ("BIT3", BIT3), ("AF", AF), ("BIT5", BIT5),
   ("ZF", ZF), ("SF", SF), ("ALL", ALL), ("MASK", MASK), ("IF", IF), ("OF", OF),
   ("DIRECT", DIRECT), ("INDIRECT", INDIRECT), ("SET", SET)]

end PS

namespace RESULT

/-- mask for byte arithmetic instructions (after subtracting 1) -/
def SIZE_BYTE : Nat := 0x00100
/-- mask for word arithmetic instructions (after subtracting 1) -/
def SIZE_WORD : Nat := 0x10000
/-- Toggles the auxiliary-carry computation. -/
def AUXOVF_AF : Nat := 0x00010
/-- Toggles the overflow computation (byte and word sign positions). -/
def AUXOVF_OF : Nat := 0x08080
/-- Carry positions for byte and word. -/
def AUXOVF_CF : Nat := 0x10100

/-- CF: resultZeroCarry & resultSize (ie, 0x100 or 0x10000) -/
def CF (resultZeroCarry resultSize : Nat) : Nat :=
  resultZeroCarry &&& resultSize

/-- PF: resultParitySign & 0xff -/
def PF (resultParitySign : Nat) : Nat :=
  resultParitySign &&& 0xff

/-- AF: (resultParitySign ^ resultAuxOverflow) & 0x0010 -/
def AF (resultParitySign resultAuxOverflow : Nat) : Nat :=
  (resultParitySign ^^^ resultAuxOverflow) &&& 0x0010

/-- ZF: resultZeroCarry & (resultSize - 1) -/
def ZF (resultZeroCarry resultSize : Nat) : Nat :=
  resultZeroCarry &&& (resultSize - 1)

/-- SF: resultParitySign & (resultSize >> 1) -/
def SF (resultParitySign resultSize : Nat) : Nat :=
  resultParitySign &&& (resultSize >>> 1)

/-- OF: (resultParitySign ^ resultAuxOverflow ^ (resultParitySign >> 1)) & (resultSize >> 1) -/
def OF (resultParitySign resultAuxOverflow resultSize : Nat) : Nat :=
  ((resultParitySign ^^^ resultAuxOverflow) ^^^ (resultParitySign >>> 1)) &&& (resultSize >>> 1)

end RESULT

/-- Parity table: 256-byte array with a 1 wherever the number of set bits of the array index is EVEN -/
def PARITY : List Nat := [
        1, 0, 0, 1, 0, 1, 1, 0, 0, 1, 1, 0, 1, 0, 0, 1,
        0, 1, 1, 0, 1, 0, 0, 1, 1, 0, 0, 1, 0, 1, 1, 0,
        0, 1, 1, 0, 1, 0, 0, 1, 1, 0, 0, 1, 0, 1, 1, 0,
        1, 0, 0, 1, 0, 1, 1, 0, 0, 1, 1, 0, 1, 0, 0, 1,
        0, 1, 1, 0, 1, 0, 0, 1, 1, 0, 0, 1, 0, 1, 1, 0,
        1, 0, 0, 1, 0, 1, 1, 0, 0, 1, 1, 0, 1, 0, 0, 1,
        1, 0, 0, 1, 0, 1, 1, 0, 0, 1, 1, 0, 1, 0, 0, 1,
        0, 1, 1, 0, 1, 0, 0, 1, 1, 0, 0, 1, 0, 1, 1, 0,
        0, 1, 1, 0, 1, 0, 0, 1, 1, 0, 0, 1, 0, 1, 1, 0,
        1, 0, 0, 1, 0, 1, 1, 0, 0, 1, 1, 0, 1, 0, 0, 1,
        1, 0, 0, 1, 0, 1, 1, 0, 0, 1, 1, 0, 1, 0, 0, 1,
        0, 1, 1, 0, 1, 0, 0, 1, 1, 0, 0, 1, 0, 1, 1, 0,
        1, 0, 0, 1, 0, 1, 1, 0, 0, 1, 1, 0, 1, 0, 0, 1,
        0, 1, 1, 0, 1, 0, 0, 1, 1, 0, 0, 1, 0, 1, 1, 0,
        0, 1, 1, 0, 1, 0, 0, 1, 1, 0, 0, 1, 0, 1, 1, 0,
        1, 0, 0, 1, 0, 1, 1, 0, 0, 1, 1, 0, 1, 0, 0, 1
    ]

namespace OPFLAG

/-- Bit value for opFlags: disable memory reads for the remainder of the current instruction -/
def NOREAD : Nat := 0x0001
/-- Bit value for opFlags: disable memory writes for the remainder of the current instruction -/
def NOWRITE : Nat := 0x0002
/-- Bit value for opFlags: a segreg has been set, or a prefix, or an STI (delay INTR
acknowledgement) -/
def NOINTR : Nat := 0x0004

end OPFLAG

namespace INTFLAG

/-- Bit value for intFlags: nothing requested -/
def NONE : Nat := 0x00
/-- Bit value for intFlags: h/w interrupt requested -/
def INTR : Nat := 0x01
/-- Bit value for intFlags: halt (HLT) requested -/
def HALT : Nat := 0x04

end INTFLAG

/-- Opcode definitions (to be continued in the source). -/
def OPCODE : List (String × Nat) := [("ACI", 0xCE), ("CALL", 0xCD)]

/-- Cycle counts (to be continued in the source). -/
def CYCLES : List (String × Nat) := [("ACI", 7)]

end CPUDef

/-! ## modules/pdp11/lib/cpudef.js -/

namespace CPUDefPDP11

/-- CPU model number (supported). -/
def MODEL_1145 : Nat := 1145
/-- CPU model number (supported). -/
def MODEL_1170 : Nat := 1170

/-- Marks an invalid physical address. -/
def ADDR_INVALID : Int := -1

namespace PS

/-- bit 0: Carry Flag -/
def CF : Nat := 0x0001
/-- bit 1: reserved, always set -/
def BIT1 : Nat := 0x0002
/-- bit 2: Parity Flag -/
def PF : Nat := 0x0004
/-- bit 3: reserved, always clear -/
def BIT3 : Nat := 0x0008
/-- bit 4: Auxiliary Carry Flag -/
def AF : Nat := 0x0010
/-- bit 5: reserved, always clear -/
def BIT5 : Nat := 0x0020
/-- bit 6: Zero Flag -/
def ZF : Nat := 0x0040
/-- bit 7: Sign Flag -/
def SF : Nat := 0x0080
/-- All "arithmetic" flags (CF, PF, AF, ZF, SF). -/
def ALL : Nat := 0x00D5
/-- The low byte of the status word. -/
def MASK : Nat := 0x00FF
/-- bit 9: Interrupt Flag (set if interrupts enabled; Intel calls this the INTE bit) -/
def IF : Nat := 0x0200

/-- These are the internal PS bits (outside of PS.MASK) that getPS() and setPS() can get and
set, but which cannot be seen with any of the documented instructions. -/
def INTERNAL : Nat := IF

/-- PS "arithmetic" flags are NOT stored in regPS; they are maintained across separate result
registers, hence the RESULT designation. -/
def RESULT : Nat := CF ||| PF ||| AF ||| ZF ||| SF

/-- These are the "always set" PS bits for the PDP11. -/
def SET : Nat := BIT1

/-- The properties of the `CPUDefPDP11.PS` object, in the order the source defines them. -/
def fields : List (String × Nat) :=
  [("CF", CF), ("BIT1", BIT1), ("PF", PF), ("BIT3", BIT3), ("AF", AF), ("BIT5", BIT5),
   ("ZF", ZF), ("SF", SF), ("ALL", ALL), ("MASK", MASK), ("IF", IF),
   ("INTERNAL", INTERNAL), ("RESULT", RESULT), ("SET", SET)]

end PS

namespace INTFLAG

/-- Interrupt-related flag (stored in intFlags): nothing requested -/
def NONE : Nat := 0x0000
/-- Interrupt-related flag: mask for 8 bits, representing interrupt levels 0-7 -/
def INTR : Nat := 0x00ff
/-- Interrupt-related flag: halt requested; see opHLT() -/
def HALT : Nat := 0x0100

end INTFLAG

/-- Opcode definitions (to be continued in the source). -/
def OPCODE : List (String × Nat) :=
  [("HLT", 0x76), ("ACI", 0xCE), ("CALL", 0xCD), ("RST0", 0xC7)]

end CPUDefPDP11

/-! ## The status word read path and auxiliary notions -/

/-- Number of set bits among the low `width` bits of `v`. -/
def bitCount (width v : Nat) : Nat :=
  ((List.range width).filter (fun i => v.testBit i)).length

namespace CPUDef

/-- Modelled from the spec: the DeferredResult scratch registers of section 3 (`resultZeroCarry`,
`resultParitySign`, `resultAuxOverflow` and the `resultSize` selector); the CPU state object
that holds them is not among the source files. -/
structure DeferredResult where
  resultZeroCarry : Nat
  resultParitySign : Nat
  resultAuxOverflow : Nat
  resultSize : Nat

/-- Modelled from the spec: `parityBit(byteValue)` of section 4.1, the read of the PARITY table;
only the table itself is in the source.  An index outside the table reads as `none`. -/
def parityBit (byteValue : Nat) : Option Nat :=
  PARITY[byteValue]?

/-- Modelled from the spec: the Carry bit as read back, section 4.2 (nonzero means carry set);
the accessor is not among the source files. -/
def getCF (r : DeferredResult) : Nat :=
  if RESULT.CF r.resultZeroCarry r.resultSize ≠ 0 then PS.CF else 0

/-- Modelled from the spec: the Parity bit as read back, `PF = parityBit(resultParitySign & 0xFF)`;
the accessor is not among the source files. -/
def getPF (r : DeferredResult) : Nat :=
  if parityBit (RESULT.PF r.resultParitySign) = some 1 then PS.PF else 0

/-- Modelled from the spec: the Auxiliary Carry bit as read back (nonzero signals nibble carry);
the accessor is not among the source files. -/
def getAF (r : DeferredResult) : Nat :=
  if RESULT.AF r.resultParitySign r.resultAuxOverflow ≠ 0 then PS.AF else 0

/-- Modelled from the spec: the Zero bit as read back; the register has inverted sense
(nonzero result means ZF clear); the accessor is not among the source files. -/
def getZF (r : DeferredResult) : Nat :=
  if RESULT.ZF r.resultZeroCarry r.resultSize ≠ 0 then 0 else PS.ZF

/-- Modelled from the spec: the Sign bit as read back; the accessor is not among the source
files. -/
def getSF (r : DeferredResult) : Nat :=
  if RESULT.SF r.resultParitySign r.resultSize ≠ 0 then PS.SF else 0

/-- Modelled from the spec: the Overflow bit as read back; the accessor is not among the source
files. -/
def getOF (r : DeferredResult) : Nat :=
  if RESULT.OF r.resultParitySign r.resultAuxOverflow r.resultSize ≠ 0 then PS.OF else 0

/-- Modelled from the spec: `getStatusWord()` of section 4.3, which ORs together the direct bits
of `regPS`, the reconstructed indirect bits and the fixed reserved bits; the function is not
among the source files. -/
def getStatusWord (regPS : Nat) (r : DeferredResult) : Nat :=
  (regPS &&& PS.DIRECT)
    ||| (getCF r ||| getPF r ||| getAF r ||| getZF r ||| getSF r ||| getOF r)
    ||| PS.SET

/-- A legal 8080 status word: bit 1 set, bits 3 and 5 clear, and no bit outside
`PS.DIRECT | PS.INDIRECT | PS.SET`. -/
def legalStatusWord (w : Nat) : Prop :=
  w &&& PS.BIT1 ≠ 0 ∧ w &&& PS.BIT3 = 0 ∧ w &&& PS.BIT5 = 0 ∧
    w &&& (PS.DIRECT ||| PS.INDIRECT ||| PS.SET) = w

instance (w : Nat) : Decidable (legalStatusWord w) :=
  inferInstanceAs (Decidable (_ ∧ _ ∧ _ ∧ _))

end CPUDef

/-- The JavaScript idiom `flags | mask`, setting the bits of `mask`. -/
def setFlag (flags mask : Nat) : Nat :=
  flags ||| mask

/-- The JavaScript idiom `flags & ~mask`, clearing the bits of `mask`, on the unsigned view of
the 32-bit operands (`~mask` is `0xFFFFFFFF ^ mask` there). -/
def clearFlag (flags mask : Nat) : Nat :=
  flags &&& (0xFFFFFFFF ^^^ mask)

/-! ## Top-level object keys and the signed reading of an operand -/

/-- The properties of the `CPUDef` object, in the order the source defines them. -/
def CPUDef.keys : List String :=
  ["MODEL_8080", "ADDR_INVALID", "PS", "RESULT", "PARITY", "OPFLAG", "INTFLAG", "OPCODE",
   "CYCLES"]

/-- The properties of the `CPUDefPDP11` object, in the order the source defines them. -/
def CPUDefPDP11.keys : List String :=
  ["MODEL_1145", "MODEL_1170", "ADDR_INVALID", "PS", "INTFLAG", "OPCODE"]

/-- The value of an `n`-bit operand read as a two's-complement integer. -/
def toSigned (n a : Nat) : Int :=
  if a < 2 ^ (n - 1) then (a : Int) else (a : Int) - 2 ^ n

/-! ## modules/pdp11/lib/panel.js -/

/-- The shape of a component's `setBinding(sHTMLType, sBinding, control, sValue)`: the result is
the truthiness of what the component returns (true if binding was successful, false if
unrecognized binding request). -/
abbrev SetBinding (Control : Type) : Type :=
  Option String → String → Control → Option String → Bool

/-- The parties a panel can pass a binding request to. -/
inductive Consulted where
  | cmp
  | cpu
  | dbg
  | parent
  deriving DecidableEq

/-- The PanelPDP11 component, as far as `setBinding` reads it: the components stored by
`initBus` (`none` while a property is still unset) and the `setBinding` of the parent class
Component, which is not among the source files and is taken as a parameter. -/
structure PanelPDP11 (Control : Type) where
  /-- The Computer component, `this.cmp` -/
  cmp : Option (SetBinding Control)
  /-- The CPU component, `this.cpu` -/
  cpu : Option (SetBinding Control)
  /-- The Debugger component, `this.dbg` -/
  dbg : Option (SetBinding Control)
  /-- The parent class method, `this.parent.setBinding` -/
  parent : SetBinding Control

namespace PanelPDP11

variable {Control : Type}

/-- One guarded call `comp && comp.setBinding(sHTMLType, sBinding, control, sValue)`: its
truthiness, and the party consulted (nobody when `comp` is absent). -/
def ask (comp : Option (SetBinding Control)) (who : Consulted) (sHTMLType : Option String)
    (sBinding : String) (control : Control) (sValue : Option String) : Bool × List Consulted :=
  match comp with
  | none => (false, [])
  | some c => (c sHTMLType sBinding control sValue, [who])

/-- setBinding(sHTMLType, sBinding, control, sValue): pass the binding request along to the
Computer, CPU and Debugger components first, then to the parent class.  Returns the result
together with the parties consulted, in order; `DEBUGGER` is the global build flag. -/
def setBinding (DEBUGGER : Bool) (panel : PanelPDP11 Control) (sHTMLType : Option String)
    (sBinding : String) (control : Control) (sValue : Option String) : Bool × List Consulted :=
  let r1 := ask panel.cmp Consulted.cmp sHTMLType sBinding control sValue
  if r1.1 then (true, r1.2) else
  let r2 := ask panel.cpu Consulted.cpu sHTMLType sBinding control sValue
  if r2.1 then (true, r1.2 ++ r2.2) else
  let r3 := if DEBUGGER then ask panel.dbg Consulted.dbg sHTMLType sBinding control sValue
    else (false, [])
  if r3.1 then (true, r1.2 ++ r2.2 ++ r3.2) else
  (panel.parent sHTMLType sBinding control sValue, r1.2 ++ r2.2 ++ r3.2 ++ [Consulted.parent])

/-- The components a request may be passed to, in order: Computer, CPU and, only when DEBUGGER
is enabled, Debugger, skipping any that is absent. -/
def candidates (DEBUGGER : Bool) (panel : PanelPDP11 Control) :
    List (Consulted × SetBinding Control) :=
  (panel.cmp.map (fun f => (Consulted.cmp, f))).toList
    ++ (panel.cpu.map (fun f => (Consulted.cpu, f))).toList
    ++ (if DEBUGGER then (panel.dbg.map (fun f => (Consulted.dbg, f))).toList else [])

/-- The reading of setBinding as "first acceptor wins, else the parent decides": ask the
candidates in order, stop with true at the first that accepts, and when none accepts return
the result of the parent. -/
def firstAccepting (parent : SetBinding Control) (sHTMLType : Option String)
    (sBinding : String) (control : Control) (sValue : Option String) :
    List (Consulted × SetBinding Control) → Bool × List Consulted
  | [] => (parent sHTMLType sBinding control sValue, [Consulted.parent])
  | (who, f) :: rest =>
    if f sHTMLType sBinding control sValue then (true, [who])
    else
      let r := firstAccepting parent sHTMLType sBinding control sValue rest
      (r.1, who :: r.2)

/-- What a party answers to the request when consulted (an absent component recognises
nothing). -/
def recognises (panel : PanelPDP11 Control) (sHTMLType : Option String) (sBinding : String)
    (control : Control) (sValue : Option String) : Consulted → Bool
  | Consulted.cmp => (ask panel.cmp Consulted.cmp sHTMLType sBinding control sValue).1
  | Consulted.cpu => (ask panel.cpu Consulted.cpu sHTMLType sBinding control sValue).1
  | Consulted.dbg => (ask panel.dbg Consulted.dbg sHTMLType sBinding control sValue).1
  | Consulted.parent => panel.parent sHTMLType sBinding control sValue

end PanelPDP11

/-! ## Bitwise helper lemmas -/

/-- Reducing an operand modulo a power of two is invisible under a mask below that power. -/
theorem land_mod_two_pow (x m k : Nat) (hm : m < 2 ^ k) : (x % 2 ^ k) &&& m = x &&& m := by
  apply Nat.eq_of_testBit_eq
  intro i
  simp only [Nat.testBit_and, Nat.testBit_mod_two_pow]
  by_cases hi : i < k
  · simp [hi]
  · have hmi : m.testBit i = false := by
      apply Nat.testBit_lt_two_pow
      exact Nat.lt_of_lt_of_le hm (Nat.pow_le_pow_right (by decide) (by omega))
    simp [hmi]

/-- The 32-bit truncation of the JavaScript bitwise operators is invisible under a mask that
fits in 32 bits. -/
theorem land_wrap32 (x m : Nat) (hm : m < 2 ^ 32) : (x % 2 ^ 32) &&& m = x &&& m :=
  land_mod_two_pow x m 32 hm

/-- Truncating both operands of an exclusive-or to 32 bits is invisible under such a mask. -/
theorem xor_land_wrap32 (x y m : Nat) (hm : m < 2 ^ 32) :
    ((x % 2 ^ 32) ^^^ (y % 2 ^ 32)) &&& m = (x ^^^ y) &&& m := by
  rw [Nat.and_xor_distrib_right, Nat.and_xor_distrib_right, land_wrap32 x m hm,
    land_wrap32 y m hm]

/-! ## The parity table -/

set_option maxRecDepth 100000 in
/-- The parity table is the table of "even number of set bits" over the 256 byte values. -/
theorem parity_eq_map :
    CPUDef.PARITY = (List.range 256).map (fun v => if bitCount 8 v % 2 = 0 then 1 else 0) := by
  decide

/-- Reading the parity table at a byte value. -/
theorem parity_get (v : Nat) (hv : v < 256) :
    CPUDef.PARITY[v]? = some (if bitCount 8 v % 2 = 0 then 1 else 0) := by
  rw [parity_eq_map, List.getElem?_map, List.getElem?_range hv]
  rfl

set_option maxRecDepth 100000 in
/-- C1: the 8080 PARITY table has exactly 256 entries, each of them 0 or 1, and for every byte
value `v` the entry `PARITY[v]` is 1 exactly when `v` has an even number of set bits; in
particular the entries at 0x00, 0x01, 0x03 and 0xFF are 1, 0, 1 and 1. -/
theorem parity_table_even_bits :
    CPUDef.PARITY.length = 256 ∧
    (∀ p ∈ CPUDef.PARITY, p = 0 ∨ p = 1) ∧
    (∀ v : Fin 256, (CPUDef.PARITY[v.val]? = some 1 ↔ bitCount 8 v.val % 2 = 0) ∧
      (CPUDef.PARITY[v.val]? = some 0 ↔ bitCount 8 v.val % 2 = 1)) ∧
    CPUDef.PARITY[0x00]? = some 1 ∧ CPUDef.PARITY[0x01]? = some 0 ∧
    CPUDef.PARITY[0x03]? = some 1 ∧ CPUDef.PARITY[0xFF]? = some 1 := by
  refine ⟨by decide, ?_, ?_, (parity_get 0x00 (by decide)).trans (by decide),
    (parity_get 0x01 (by decide)).trans (by decide),
    (parity_get 0x03 (by decide)).trans (by decide),
    (parity_get 0xFF (by decide)).trans (by decide)⟩
  · intro p hp
    rw [parity_eq_map, List.mem_map] at hp
    obtain ⟨v, -, rfl⟩ := hp
    by_cases h : bitCount 8 v % 2 = 0
    · right; exact if_pos h
    · left; exact if_neg h
  · intro v
    rw [parity_get v.val v.isLt]
    by_cases h : bitCount 8 v.val % 2 = 0
    · rw [if_pos h]; simp [h]
    · rw [if_neg h]
      have : bitCount 8 v.val % 2 = 1 := by omega
      simp [this]

/-! ## Status word: reachability of flags and round trip -/

/-- Masking with a single bit yields either nothing or that bit. -/
theorem land_two_pow_cases (w k : Nat) : w &&& 2 ^ k = 0 ∨ w &&& 2 ^ k = 2 ^ k := by
  rw [Nat.and_two_pow]
  cases w.testBit k <;> simp

/-- Reading a single-bit flag back as "mask if nonzero" returns the masked value. -/
theorem ite_land_two_pow (w k : Nat) : (if w &&& 2 ^ k ≠ 0 then 2 ^ k else 0) = w &&& 2 ^ k := by
  rcases land_two_pow_cases w k with h | h
  · simp [h]
  · rw [h]; simp

open CPUDef in
set_option maxRecDepth 1000000 in
/-- Every combination of the six indirect flags is produced by some register contents. -/
theorem flags_reachable (size : Nat) (hsize : size = RESULT.SIZE_BYTE ∨ size = RESULT.SIZE_WORD)
    (cf pf af zf sf ovf : Bool) :
    ∃ rZC rPS rAO : Nat,
      (RESULT.CF rZC size ≠ 0 ↔ cf = true) ∧
      (PARITY[RESULT.PF rPS]? = some 1 ↔ pf = true) ∧
      (RESULT.AF rPS rAO ≠ 0 ↔ af = true) ∧
      (RESULT.ZF rZC size = 0 ↔ zf = true) ∧
      (RESULT.SF rPS size ≠ 0 ↔ sf = true) ∧
      (RESULT.OF rPS rAO size ≠ 0 ↔ ovf = true) := by
  -- seed values: carry bit and a nonzero low bit; sign bit and a parity-fixing low bit;
  -- the auxiliary register is solved from the AF and OF equations
  let rZC := (if cf then size else 0) ||| (if zf then 0 else 1)
  let s := if sf then size >>> 1 else 0
  let rPS := s ||| (if (PARITY[s &&& 0xff]? = some 1) = (pf = true) then 0 else 1)
  let rAO := (if (rPS &&& 0x10 ≠ 0) = (af = true) then 0 else 0x10) |||
    (if (((rPS ^^^ (rPS >>> 1)) &&& (size >>> 1)) ≠ 0) = (ovf = true) then 0 else (size >>> 1))
  refine ⟨rZC, rPS, rAO, ?_⟩
  rcases hsize with rfl | rfl <;> revert cf pf af zf sf ovf <;> decide

/-- A legal status word is the OR of its direct bits, its six indirect flag bits and the
always-set bit. -/
theorem legal_word_split (w : Nat) (h : CPUDef.legalStatusWord w) :
    (w &&& CPUDef.PS.DIRECT)
      ||| ((w &&& CPUDef.PS.CF) ||| (w &&& CPUDef.PS.PF) ||| (w &&& CPUDef.PS.AF)
        ||| (w &&& CPUDef.PS.ZF) ||| (w &&& CPUDef.PS.SF) ||| (w &&& CPUDef.PS.OF))
      ||| CPUDef.PS.SET = w := by
  obtain ⟨h1, -, -, hall⟩ := h
  have hset : w &&& CPUDef.PS.SET = CPUDef.PS.SET := by
    rcases land_two_pow_cases w 1 with h0 | h0
    · exact absurd h0 h1
    · exact h0
  conv_lhs => rw [← hset]
  simp only [← Nat.and_or_distrib_left]
  conv_rhs => rw [← hall]
  rfl

open CPUDef in
/-- C2: status-word round trip on the 8080 variant.  For each result size (byte or word) every
combination of the indirect flags CF, PF, AF, ZF, SF and OF is produced by some contents of
resultZeroCarry, resultParitySign and resultAuxOverflow under the documented formulas, and so
for every legal status word `w` (bit 1 set, bits 3 and 5 clear, nothing outside
DIRECT | INDIRECT | SET) there are register contents under which each flag reads back as the
corresponding bit of `w` and the word assembled from the direct bits of `w`, the reconstructed
flags and PS.SET is `w` again. -/
theorem status_word_round_trip (size : Nat)
    (hsize : size = RESULT.SIZE_BYTE ∨ size = RESULT.SIZE_WORD) :
    (∀ cf pf af zf sf ovf : Bool, ∃ rZC rPS rAO : Nat,
      (RESULT.CF rZC size ≠ 0 ↔ cf = true) ∧
      (PARITY[RESULT.PF rPS]? = some 1 ↔ pf = true) ∧
      (RESULT.AF rPS rAO ≠ 0 ↔ af = true) ∧
      (RESULT.ZF rZC size = 0 ↔ zf = true) ∧
      (RESULT.SF rPS size ≠ 0 ↔ sf = true) ∧
      (RESULT.OF rPS rAO size ≠ 0 ↔ ovf = true)) ∧
    (∀ w : Nat, legalStatusWord w → ∃ r : DeferredResult, r.resultSize = size ∧
      getCF r = w &&& PS.CF ∧ getPF r = w &&& PS.PF ∧ getAF r = w &&& PS.AF ∧
      getZF r = w &&& PS.ZF ∧ getSF r = w &&& PS.SF ∧ getOF r = w &&& PS.OF ∧
      getStatusWord (w &&& PS.DIRECT) r = w) := by
  refine ⟨flags_reachable size hsize, ?_⟩
  intro w hw
  obtain ⟨rZC, rPS, rAO, hcf, hpf, haf, hzf, hsf, hof⟩ :=
    flags_reachable size hsize (decide (w &&& PS.CF ≠ 0)) (decide (w &&& PS.PF ≠ 0))
      (decide (w &&& PS.AF ≠ 0)) (decide (w &&& PS.ZF ≠ 0)) (decide (w &&& PS.SF ≠ 0))
      (decide (w &&& PS.OF ≠ 0))
  simp only [decide_eq_true_eq] at hcf hpf haf hzf hsf hof
  have gcf : getCF ⟨rZC, rPS, rAO, size⟩ = w &&& PS.CF := by
    have := ite_land_two_pow w 0
    simp only [getCF]
    rw [if_congr hcf rfl rfl]; exact this
  have gpf : getPF ⟨rZC, rPS, rAO, size⟩ = w &&& PS.PF := by
    have := ite_land_two_pow w 2
    simp only [getPF, parityBit]
    rw [if_congr hpf rfl rfl]; exact this
  have gaf : getAF ⟨rZC, rPS, rAO, size⟩ = w &&& PS.AF := by
    have := ite_land_two_pow w 4
    simp only [getAF]
    rw [if_congr haf rfl rfl]; exact this
  have gzf : getZF ⟨rZC, rPS, rAO, size⟩ = w &&& PS.ZF := by
    have this : (if w &&& PS.ZF ≠ 0 then PS.ZF else 0) = w &&& PS.ZF := ite_land_two_pow w 6
    simp only [getZF]
    rw [if_congr (not_congr hzf) rfl rfl]
    refine Eq.trans ?_ this
    by_cases hz : w &&& PS.ZF ≠ 0
    · rw [if_neg (not_not.mpr hz), if_pos hz]
    · rw [if_pos hz, if_neg hz]
  have gsf : getSF ⟨rZC, rPS, rAO, size⟩ = w &&& PS.SF := by
    have := ite_land_two_pow w 7
    simp only [getSF]
    rw [if_congr hsf rfl rfl]; exact this
  have gof : getOF ⟨rZC, rPS, rAO, size⟩ = w &&& PS.OF := by
    have := ite_land_two_pow w 11
    simp only [getOF]
    rw [if_congr hof rfl rfl]; exact this
  refine ⟨⟨rZC, rPS, rAO, size⟩, rfl, gcf, gpf, gaf, gzf, gsf, gof, ?_⟩
  unfold getStatusWord
  rw [gcf, gpf, gaf, gzf, gsf, gof, Nat.and_assoc, Nat.and_self]
  exact legal_word_split w hw

/-- Witness for C2: the legal word 0x0AD7 (every flag set) is reproduced with byte-sized
results. -/
theorem status_word_round_trip_witness :
    CPUDef.legalStatusWord 0x0AD7 ∧
    ∃ r : CPUDef.DeferredResult, r.resultSize = CPUDef.RESULT.SIZE_BYTE ∧
      CPUDef.getStatusWord (0x0AD7 &&& CPUDef.PS.DIRECT) r = 0x0AD7 := by
  refine ⟨by decide, ?_⟩
  obtain ⟨r, hr, -, -, -, -, -, -, hget⟩ :=
    (status_word_round_trip CPUDef.RESULT.SIZE_BYTE (Or.inl rfl)).2 0x0AD7 (by decide)
  exact ⟨r, hr, hget⟩

/-! ## Result-register flag formulas on an addition -/

set_option maxRecDepth 1000000 in
/-- The auxiliary-carry formula on five-bit operands, by exhaustion. -/
theorem aux_carry_small : ∀ a < 32, ∀ b < 32, ∀ c < 2,
    (CPUDef.RESULT.AF (a + b + c) (a ^^^ b) ≠ 0 ↔ a % 16 + b % 16 + c ≥ 16) := by
  decide

/-- The auxiliary-carry formula only looks at the low five bits of the operands. -/
theorem aux_carry_low_bits (a b c : Nat) :
    CPUDef.RESULT.AF (a + b + c) (a ^^^ b)
      = CPUDef.RESULT.AF (a % 32 + b % 32 + c) ((a % 32) ^^^ (b % 32)) := by
  have h16 : (0x0010 : Nat) < 2 ^ 5 := by decide
  have hs : (a % 32 + b % 32 + c) % 2 ^ 5 = (a + b + c) % 2 ^ 5 := by
    show (a % 32 + b % 32 + c) % 32 = (a + b + c) % 32
    omega
  unfold CPUDef.RESULT.AF
  simp only [Nat.and_xor_distrib_right]
  rw [← land_mod_two_pow (a + b + c) _ 5 h16, ← land_mod_two_pow (a % 32 + b % 32 + c) _ 5 h16,
    hs]
  rw [show a % 32 = a % 2 ^ 5 from rfl, show b % 32 = b % 2 ^ 5 from rfl,
    land_mod_two_pow a _ 5 h16, land_mod_two_pow b _ 5 h16]

/-- After an addition with carry-in, AF reads nonzero exactly on a carry out of bit 3. -/
theorem aux_carry_add (a b c : Nat) (hc : c < 2) :
    CPUDef.RESULT.AF (a + b + c) (a ^^^ b) ≠ 0 ↔ a % 16 + b % 16 + c ≥ 16 := by
  rw [aux_carry_low_bits]
  have h := aux_carry_small (a % 32) (Nat.mod_lt _ (by decide)) (b % 32)
    (Nat.mod_lt _ (by decide)) c hc
  have ha : a % 32 % 16 = a % 16 := by omega
  have hb : b % 32 % 16 = b % 16 := by omega
  rw [ha, hb] at h
  exact h

/-- The ZF expression is the raw result modulo the size. -/
theorem zf_eq_mod (r size : Nat)
    (hsize : size = CPUDef.RESULT.SIZE_BYTE ∨ size = CPUDef.RESULT.SIZE_WORD) :
    CPUDef.RESULT.ZF r size = r % size := by
  rcases hsize with rfl | rfl
  · exact Nat.and_pow_two_sub_one_eq_mod r 8
  · exact Nat.and_pow_two_sub_one_eq_mod r 16

/-- The CF expression is the size bit of the raw result. -/
theorem cf_eq_bit (r size : Nat)
    (hsize : size = CPUDef.RESULT.SIZE_BYTE ∨ size = CPUDef.RESULT.SIZE_WORD) :
    CPUDef.RESULT.CF r size = (r / size % 2) * size := by
  have key : ∀ k : Nat, r &&& 2 ^ k = (r / 2 ^ k % 2) * 2 ^ k := by
    intro k
    rw [Nat.and_two_pow, Nat.testBit_to_div_mod]
    rcases Nat.mod_two_eq_zero_or_one (r / 2 ^ k) with h | h <;> simp [h]
  rcases hsize with rfl | rfl
  · exact key 8
  · exact key 16

/-- The byte-sized SF expression is bit 7 of the result truncated to a byte. -/
theorem sf_byte (s : Nat) :
    CPUDef.RESULT.SF s CPUDef.RESULT.SIZE_BYTE ≠ 0 ↔ (s % 256).testBit 7 = true := by
  have h1 : CPUDef.RESULT.SF s CPUDef.RESULT.SIZE_BYTE = (s.testBit 7).toNat * 2 ^ 7 :=
    Nat.and_two_pow s 7
  have h2 : (s % 256).testBit 7 = s.testBit 7 := by
    rw [show (256 : Nat) = 2 ^ 8 from rfl, Nat.testBit_mod_two_pow]
    simp
  rw [h1, h2]
  cases s.testBit 7 <;> simp

/-- The PF index expression is the result truncated to a byte. -/
theorem pf_eq_mod (s : Nat) : CPUDef.RESULT.PF s = s % 256 :=
  Nat.and_pow_two_sub_one_eq_mod s 8

open CPUDef in
/-- C3: end-to-end 8-bit addition.  For operands `a`, `b` in 0..255 and carry-in `c` in 0..1,
with resultZeroCarry = resultParitySign = a + b + c (unmasked), resultAuxOverflow = a XOR b and
resultSize = SIZE_BYTE: CF is nonzero iff a + b + c >= 256; the ZF expression is zero iff
(a + b + c) mod 256 = 0; SF is nonzero iff bit 7 of (a + b + c) mod 256 is set; PF is
PARITY[(a + b + c) mod 256], which is 1 iff the 8-bit result has an even number of set bits;
AF is nonzero iff (a mod 16) + (b mod 16) + c >= 16. -/
theorem add8_flags (a b c : Nat) (ha : a < 256) (hb : b < 256) (hc : c < 2) :
    (RESULT.CF (a + b + c) RESULT.SIZE_BYTE ≠ 0 ↔ a + b + c ≥ 256) ∧
    (RESULT.ZF (a + b + c) RESULT.SIZE_BYTE = 0 ↔ (a + b + c) % 256 = 0) ∧
    (RESULT.SF (a + b + c) RESULT.SIZE_BYTE ≠ 0 ↔ ((a + b + c) % 256).testBit 7 = true) ∧
    PARITY[RESULT.PF (a + b + c)]? = PARITY[(a + b + c) % 256]? ∧
    (PARITY[RESULT.PF (a + b + c)]? = some 1 ↔ bitCount 8 ((a + b + c) % 256) % 2 = 0) ∧
    (RESULT.AF (a + b + c) (a ^^^ b) ≠ 0 ↔ a % 16 + b % 16 + c ≥ 16) := by
  refine ⟨?_, ?_, sf_byte _, ?_, ?_, aux_carry_add a b c hc⟩
  · rw [cf_eq_bit _ _ (Or.inl rfl)]
    simp only [RESULT.SIZE_BYTE]
    omega
  · rw [zf_eq_mod _ _ (Or.inl rfl)]
    exact Iff.rfl
  · rw [pf_eq_mod]
  · rw [pf_eq_mod, parity_get _ (Nat.mod_lt _ (by decide))]
    by_cases h : bitCount 8 ((a + b + c) % 256) % 2 = 0
    · simp [h]
    · simp [h]

/-- Witness for C3: 0xFF + 0x01 with no carry-in reads CF set, ZF set (expression zero),
SF clear, PF set and AF set. -/
theorem add8_flags_witness :
    (0xFF < 256 ∧ 0x01 < 256 ∧ 0 < 2) ∧
    CPUDef.RESULT.CF (0xFF + 0x01 + 0) CPUDef.RESULT.SIZE_BYTE ≠ 0 ∧
    CPUDef.RESULT.ZF (0xFF + 0x01 + 0) CPUDef.RESULT.SIZE_BYTE = 0 ∧
    ¬ CPUDef.RESULT.SF (0xFF + 0x01 + 0) CPUDef.RESULT.SIZE_BYTE ≠ 0 ∧
    CPUDef.PARITY[CPUDef.RESULT.PF (0xFF + 0x01 + 0)]? = some 1 ∧
    CPUDef.RESULT.AF (0xFF + 0x01 + 0) (0xFF ^^^ 0x01) ≠ 0 := by
  obtain ⟨h1, h2, h3, -, h5, h6⟩ := add8_flags 0xFF 0x01 0 (by decide) (by decide) (by decide)
  exact ⟨by decide, h1.mpr (by decide), h2.mpr (by decide), fun h => absurd (h3.mp h) (by decide),
    h5.mpr (by decide), h6.mpr (by decide)⟩

/-! ## Zero and carry at the size boundary -/

open CPUDef in
/-- C4: zero/carry boundary.  For resultSize SIZE_BYTE = 0x100 or SIZE_WORD = 0x10000 and every
raw resultZeroCarry `r`: the ZF expression is zero iff `r` is a multiple of resultSize; it is
the same for `r` and `r XOR resultSize`; and for `r < 2 * resultSize` the CF expression is
nonzero iff `r >= resultSize`.  With SIZE_BYTE, 0x100 reads as a zero result with carry set
and 0x1FF reads as nonzero. -/
theorem zero_carry_boundary :
    (RESULT.SIZE_BYTE = 0x100 ∧ RESULT.SIZE_WORD = 0x10000) ∧
    (∀ size : Nat, size = RESULT.SIZE_BYTE ∨ size = RESULT.SIZE_WORD → ∀ r : Nat,
      (RESULT.ZF r size = 0 ↔ size ∣ r) ∧
      RESULT.ZF (r ^^^ size) size = RESULT.ZF r size ∧
      (r < 2 * size → (RESULT.CF r size ≠ 0 ↔ r ≥ size))) ∧
    RESULT.ZF 0x100 RESULT.SIZE_BYTE = 0 ∧ RESULT.CF 0x100 RESULT.SIZE_BYTE ≠ 0 ∧
    RESULT.ZF 0x1FF RESULT.SIZE_BYTE ≠ 0 := by
  refine ⟨⟨rfl, rfl⟩, ?_, by decide, by decide, by decide⟩
  intro size hsize r
  refine ⟨?_, ?_, ?_⟩
  · rw [zf_eq_mod r size hsize, Nat.dvd_iff_mod_eq_zero]
  · unfold RESULT.ZF
    rw [Nat.and_xor_distrib_right]
    have : size &&& (size - 1) = 0 := by rcases hsize with rfl | rfl <;> decide
    rw [this, Nat.xor_zero]
  · intro hr
    rw [cf_eq_bit r size hsize]
    rcases hsize with rfl | rfl
    · simp only [RESULT.SIZE_BYTE] at hr ⊢
      omega
    · simp only [RESULT.SIZE_WORD] at hr ⊢
      omega

/-- Witness for C4: with SIZE_BYTE the raw result 0x1FF (below twice the size) has a nonzero
ZF expression and a nonzero CF expression. -/
theorem zero_carry_boundary_witness :
    (0x1FF < 2 * CPUDef.RESULT.SIZE_BYTE) ∧
    ¬ (CPUDef.RESULT.SIZE_BYTE ∣ 0x1FF) ∧ CPUDef.RESULT.ZF 0x1FF CPUDef.RESULT.SIZE_BYTE ≠ 0 ∧
    CPUDef.RESULT.CF 0x1FF CPUDef.RESULT.SIZE_BYTE ≠ 0 := by
  obtain ⟨hz, -, hc⟩ := zero_carry_boundary.2.1 CPUDef.RESULT.SIZE_BYTE (Or.inl rfl) 0x1FF
  have hd : ¬ (CPUDef.RESULT.SIZE_BYTE ∣ 0x1FF) := by decide
  exact ⟨by decide, hd, fun h => hd (hz.mp h), (hc (by decide)).mpr (by decide)⟩

/-! ## Status word layout: reserved bits, direct and indirect groups -/

/-- Masking two disjoint masks in a row leaves nothing. -/
theorem land_land_disjoint (x m k : Nat) (h : m &&& k = 0) : (x &&& m) &&& k = 0 := by
  rw [Nat.and_assoc, h, Nat.and_zero]

/-- Reading a mask back from a word assembled from two masked groups and fixed bits, when the
mask is disjoint from both groups: only the fixed bits show. -/
theorem assembled_land_fixed (d i D I S m : Nat) (hD : D &&& m = 0) (hI : I &&& m = 0) :
    ((d &&& D) ||| (i &&& I) ||| S) &&& m = S &&& m := by
  rw [Nat.and_distrib_right, Nat.and_distrib_right, land_land_disjoint d D m hD,
    land_land_disjoint i I m hI, Nat.zero_or, Nat.zero_or]

/-- C5: reserved bits are fixed however the status word is constructed.  On the 8080 variant,
for every direct value `d` and indirect value `i`, the word
(d & PS.DIRECT) | (i & PS.INDIRECT) | PS.SET has bit 1 set and bits 3 and 5 clear; on the
PDP-11 variant the same holds for (d & PS.INTERNAL) | (i & PS.RESULT) | PS.SET. -/
theorem reserved_bits_fixed (d i : Nat) :
    (((d &&& CPUDef.PS.DIRECT) ||| (i &&& CPUDef.PS.INDIRECT) ||| CPUDef.PS.SET)
        &&& CPUDef.PS.BIT1 = CPUDef.PS.BIT1 ∧
      ((d &&& CPUDef.PS.DIRECT) ||| (i &&& CPUDef.PS.INDIRECT) ||| CPUDef.PS.SET)
        &&& CPUDef.PS.BIT3 = 0 ∧
      ((d &&& CPUDef.PS.DIRECT) ||| (i &&& CPUDef.PS.INDIRECT) ||| CPUDef.PS.SET)
        &&& CPUDef.PS.BIT5 = 0) ∧
    (((d &&& CPUDefPDP11.PS.INTERNAL) ||| (i &&& CPUDefPDP11.PS.RESULT) ||| CPUDefPDP11.PS.SET)
        &&& CPUDefPDP11.PS.BIT1 = CPUDefPDP11.PS.BIT1 ∧
      ((d &&& CPUDefPDP11.PS.INTERNAL) ||| (i &&& CPUDefPDP11.PS.RESULT) ||| CPUDefPDP11.PS.SET)
        &&& CPUDefPDP11.PS.BIT3 = 0 ∧
      ((d &&& CPUDefPDP11.PS.INTERNAL) ||| (i &&& CPUDefPDP11.PS.RESULT) ||| CPUDefPDP11.PS.SET)
        &&& CPUDefPDP11.PS.BIT5 = 0) := by
  refine ⟨⟨?_, ?_, ?_⟩, ⟨?_, ?_, ?_⟩⟩ <;>
    refine Eq.trans (assembled_land_fixed d i _ _ _ _ ?_ ?_) ?_ <;> decide

/-- C6: the status-word bit layout shared by both targets.  In CPUDef.PS and CPUDefPDP11.PS,
CF = 1<<0, PF = 1<<2, AF = 1<<4, ZF = 1<<6, SF = 1<<7 and IF = 1<<9; PS.ALL is
CF | PF | AF | ZF | SF = 0xD5; PS.MASK = 0xFF is PS.ALL | BIT1 | BIT3 | BIT5; only the 8080
variant defines OF, as 1<<11 (no PDP-11 PS property is named OF or has bit 11); IF and OF lie
outside PS.MASK. -/
theorem status_bit_layout :
    (CPUDef.PS.CF = 1 <<< 0 ∧ CPUDef.PS.PF = 1 <<< 2 ∧ CPUDef.PS.AF = 1 <<< 4 ∧
      CPUDef.PS.ZF = 1 <<< 6 ∧ CPUDef.PS.SF = 1 <<< 7 ∧ CPUDef.PS.IF = 1 <<< 9 ∧
      CPUDef.PS.ALL = CPUDef.PS.CF ||| CPUDef.PS.PF ||| CPUDef.PS.AF ||| CPUDef.PS.ZF
        ||| CPUDef.PS.SF ∧
      CPUDef.PS.ALL = 0xD5 ∧ CPUDef.PS.MASK = 0xFF ∧
      CPUDef.PS.MASK = CPUDef.PS.ALL ||| CPUDef.PS.BIT1 ||| CPUDef.PS.BIT3 ||| CPUDef.PS.BIT5 ∧
      CPUDef.PS.IF &&& CPUDef.PS.MASK = 0) ∧
    (CPUDefPDP11.PS.CF = 1 <<< 0 ∧ CPUDefPDP11.PS.PF = 1 <<< 2 ∧ CPUDefPDP11.PS.AF = 1 <<< 4 ∧
      CPUDefPDP11.PS.ZF = 1 <<< 6 ∧ CPUDefPDP11.PS.SF = 1 <<< 7 ∧ CPUDefPDP11.PS.IF = 1 <<< 9 ∧
      CPUDefPDP11.PS.ALL = CPUDefPDP11.PS.CF ||| CPUDefPDP11.PS.PF ||| CPUDefPDP11.PS.AF
        ||| CPUDefPDP11.PS.ZF ||| CPUDefPDP11.PS.SF ∧
      CPUDefPDP11.PS.ALL = 0xD5 ∧ CPUDefPDP11.PS.MASK = 0xFF ∧
      CPUDefPDP11.PS.MASK = CPUDefPDP11.PS.ALL ||| CPUDefPDP11.PS.BIT1 ||| CPUDefPDP11.PS.BIT3
        ||| CPUDefPDP11.PS.BIT5 ∧
      CPUDefPDP11.PS.IF &&& CPUDefPDP11.PS.MASK = 0) ∧
    (CPUDef.PS.OF = 1 <<< 11 ∧ CPUDef.PS.OF &&& CPUDef.PS.MASK = 0 ∧
      CPUDef.PS.fields.lookup "OF" = some (1 <<< 11) ∧
      CPUDefPDP11.PS.fields.lookup "OF" = none ∧
      ∀ f ∈ CPUDefPDP11.PS.fields, f.2 &&& (1 <<< 11) = 0) := by
  decide

/-- C7, as stated, fails on the 8080 variant: PS.DIRECT is not PS.IF | PS.OF, and OF is among
the flags reconstructed from the result registers (it is part of PS.INDIRECT). -/
theorem direct_is_not_if_or_of :
    ¬ (CPUDef.PS.DIRECT = CPUDef.PS.IF ||| CPUDef.PS.OF) ∧
    ¬ (CPUDef.PS.INDIRECT &&& CPUDef.PS.OF = 0) := by
  decide

/-- C7, amended: on the 8080 variant the only bit stored directly in the status word is the
Interrupt-Enable bit, PS.DIRECT = PS.IF; the internal-only Overflow bit OF is not a direct bit
but one of the indirect flags, PS.INDIRECT = CF | PF | AF | ZF | SF | OF, reconstructed from
the result registers. -/
theorem direct_is_if_only :
    CPUDef.PS.DIRECT = CPUDef.PS.IF ∧
    CPUDef.PS.DIRECT &&& CPUDef.PS.OF = 0 ∧
    CPUDef.PS.INDIRECT = CPUDef.PS.CF ||| CPUDef.PS.PF ||| CPUDef.PS.AF ||| CPUDef.PS.ZF
      ||| CPUDef.PS.SF ||| CPUDef.PS.OF ∧
    CPUDef.PS.INDIRECT &&& CPUDef.PS.OF = CPUDef.PS.OF := by
  decide

/-- Reading one of two disjoint groups back from the assembled word returns that group. -/
theorem assembled_land_group (w D I S : Nat) (hDI : D &&& I = 0) (hSD : S &&& D = 0)
    (hSI : S &&& I = 0) :
    ((w &&& D) ||| (w &&& I) ||| S) &&& D = w &&& D ∧
    ((w &&& D) ||| (w &&& I) ||| S) &&& I = w &&& I := by
  have hID : I &&& D = 0 := by rw [Nat.and_comm]; exact hDI
  constructor
  · rw [Nat.and_distrib_right, Nat.and_distrib_right, land_land_disjoint w I D hID, hSD,
      Nat.and_assoc, Nat.and_self, Nat.or_zero, Nat.or_zero]
  · rw [Nat.and_distrib_right, Nat.and_distrib_right, land_land_disjoint w D I hDI, hSI,
      Nat.and_assoc, Nat.and_self, Nat.zero_or, Nat.or_zero]

/-- C8: direct and indirect flags partition the status flags.  On the 8080 variant PS.DIRECT,
PS.INDIRECT and PS.SET are pairwise disjoint and PS.DIRECT | PS.INDIRECT is exactly
CF | PF | AF | ZF | SF | IF | OF; on the PDP-11 variant PS.INTERNAL, PS.RESULT and PS.SET are
pairwise disjoint, PS.RESULT = PS.ALL = CF | PF | AF | ZF | SF and
PS.INTERNAL | PS.RESULT = PS.ALL | PS.IF.  Hence for every word `w` the direct part and the
indirect part are each recovered unchanged from (w & direct) | (w & indirect) | PS.SET. -/
theorem direct_indirect_partition :
    (CPUDef.PS.DIRECT &&& CPUDef.PS.INDIRECT = 0 ∧ CPUDef.PS.DIRECT &&& CPUDef.PS.SET = 0 ∧
      CPUDef.PS.INDIRECT &&& CPUDef.PS.SET = 0 ∧
      CPUDef.PS.DIRECT ||| CPUDef.PS.INDIRECT = CPUDef.PS.CF ||| CPUDef.PS.PF ||| CPUDef.PS.AF
        ||| CPUDef.PS.ZF ||| CPUDef.PS.SF ||| CPUDef.PS.IF ||| CPUDef.PS.OF) ∧
    (CPUDefPDP11.PS.INTERNAL &&& CPUDefPDP11.PS.RESULT = 0 ∧
      CPUDefPDP11.PS.INTERNAL &&& CPUDefPDP11.PS.SET = 0 ∧
      CPUDefPDP11.PS.RESULT &&& CPUDefPDP11.PS.SET = 0 ∧
      CPUDefPDP11.PS.RESULT = CPUDefPDP11.PS.ALL ∧
      CPUDefPDP11.PS.ALL = CPUDefPDP11.PS.CF ||| CPUDefPDP11.PS.PF ||| CPUDefPDP11.PS.AF
        ||| CPUDefPDP11.PS.ZF ||| CPUDefPDP11.PS.SF ∧
      CPUDefPDP11.PS.INTERNAL ||| CPUDefPDP11.PS.RESULT
        = CPUDefPDP11.PS.ALL ||| CPUDefPDP11.PS.IF) ∧
    (∀ w : Nat,
      ((w &&& CPUDef.PS.DIRECT) ||| (w &&& CPUDef.PS.INDIRECT) ||| CPUDef.PS.SET)
        &&& CPUDef.PS.DIRECT = w &&& CPUDef.PS.DIRECT ∧
      ((w &&& CPUDef.PS.DIRECT) ||| (w &&& CPUDef.PS.INDIRECT) ||| CPUDef.PS.SET)
        &&& CPUDef.PS.INDIRECT = w &&& CPUDef.PS.INDIRECT) ∧
    (∀ w : Nat,
      ((w &&& CPUDefPDP11.PS.INTERNAL) ||| (w &&& CPUDefPDP11.PS.RESULT) ||| CPUDefPDP11.PS.SET)
        &&& CPUDefPDP11.PS.INTERNAL = w &&& CPUDefPDP11.PS.INTERNAL ∧
      ((w &&& CPUDefPDP11.PS.INTERNAL) ||| (w &&& CPUDefPDP11.PS.RESULT) ||| CPUDefPDP11.PS.SET)
        &&& CPUDefPDP11.PS.RESULT = w &&& CPUDefPDP11.PS.RESULT) := by
  refine ⟨by decide, by decide, ?_, ?_⟩
  · intro w
    exact assembled_land_group w _ _ _ (by decide) (by decide) (by decide)
  · intro w
    exact assembled_land_group w _ _ _ (by decide) (by decide) (by decide)

/-- C9, as stated, fails: the PDP-11 PS.INTERNAL mask is not empty; it holds a bit that lies
outside PS.MASK. -/
theorem pdp11_internal_not_empty :
    ¬ (CPUDefPDP11.PS.INTERNAL = 0) ∧
    CPUDefPDP11.PS.INTERNAL &&& CPUDefPDP11.PS.MASK = 0 := by
  decide

/-- C9, amended: the PDP-11 variant has no internal-only Overflow bit (no PS property named OF
and no PS property with bit 11); its PS.INTERNAL mask is exactly PS.IF (bit 9), which lies
outside PS.MASK and is the only defined status bit outside PS.MASK; its only non-reserved
flags inside PS.MASK are the RESULT group CF, PF, AF, ZF, SF of the indirect path. -/
theorem pdp11_internal_is_if :
    CPUDefPDP11.PS.fields.lookup "OF" = none ∧
    (∀ f ∈ CPUDefPDP11.PS.fields, f.2 &&& (1 <<< 11) = 0) ∧
    CPUDefPDP11.PS.INTERNAL = CPUDefPDP11.PS.IF ∧
    CPUDefPDP11.PS.INTERNAL = 1 <<< 9 ∧
    CPUDefPDP11.PS.INTERNAL &&& CPUDefPDP11.PS.MASK = 0 ∧
    (∀ f ∈ CPUDefPDP11.PS.fields,
      f.2 &&& (CPUDefPDP11.PS.MASK ||| CPUDefPDP11.PS.INTERNAL) = f.2) ∧
    CPUDefPDP11.PS.RESULT = CPUDefPDP11.PS.CF ||| CPUDefPDP11.PS.PF ||| CPUDefPDP11.PS.AF
      ||| CPUDefPDP11.PS.ZF ||| CPUDefPDP11.PS.SF ∧
    CPUDefPDP11.PS.MASK = CPUDefPDP11.PS.RESULT ||| CPUDefPDP11.PS.BIT1 ||| CPUDefPDP11.PS.BIT3
      ||| CPUDefPDP11.PS.BIT5 ∧
    CPUDefPDP11.PS.RESULT &&& (CPUDefPDP11.PS.BIT1 ||| CPUDefPDP11.PS.BIT3
      ||| CPUDefPDP11.PS.BIT5) = 0 := by
  decide

/-! ## Interrupt flags -/

/-- Setting or clearing the bits of one mask leaves the bits of a disjoint 32-bit mask as
they were. -/
theorem set_clear_frame (f X Y : Nat) (hXY : X &&& Y = 0) (hY : (0xFFFFFFFF ^^^ X) &&& Y = Y) :
    setFlag f X &&& Y = f &&& Y ∧ clearFlag f X &&& Y = f &&& Y := by
  constructor
  · unfold setFlag
    rw [Nat.and_distrib_right, hXY, Nat.or_zero]
  · unfold clearFlag
    rw [Nat.and_assoc, hY]

/-- C10: INTFLAG encoding.  On both targets INTFLAG.NONE = 0 and the INTR and HALT masks are
nonzero and disjoint, so for every intFlags value `f`, setting or clearing HALT leaves
`f & INTR` unchanged and setting or clearing INTR leaves `f & HALT` unchanged.  On the 8080
variant INTR is the single bit 0x01 and HALT the single bit 0x04; on the PDP-11 variant INTR
is exactly the eight low bits 0xFF and HALT is the single bit 0x100. -/
theorem intflag_encoding :
    (CPUDef.INTFLAG.NONE = 0 ∧ CPUDef.INTFLAG.INTR ≠ 0 ∧ CPUDef.INTFLAG.HALT ≠ 0 ∧
      CPUDef.INTFLAG.INTR &&& CPUDef.INTFLAG.HALT = 0 ∧
      CPUDef.INTFLAG.INTR = 0x01 ∧ CPUDef.INTFLAG.INTR = 2 ^ 0 ∧
      CPUDef.INTFLAG.HALT = 0x04 ∧ CPUDef.INTFLAG.HALT = 2 ^ 2) ∧
    (CPUDefPDP11.INTFLAG.NONE = 0 ∧ CPUDefPDP11.INTFLAG.INTR ≠ 0 ∧
      CPUDefPDP11.INTFLAG.HALT ≠ 0 ∧
      CPUDefPDP11.INTFLAG.INTR &&& CPUDefPDP11.INTFLAG.HALT = 0 ∧
      CPUDefPDP11.INTFLAG.INTR = 0xFF ∧ CPUDefPDP11.INTFLAG.INTR = 2 ^ 8 - 1 ∧
      (∀ level : Fin 8, CPUDefPDP11.INTFLAG.INTR.testBit level.val = true) ∧
      CPUDefPDP11.INTFLAG.HALT = 0x100 ∧ CPUDefPDP11.INTFLAG.HALT = 2 ^ 8) ∧
    (∀ f : Nat,
      setFlag f CPUDef.INTFLAG.HALT &&& CPUDef.INTFLAG.INTR = f &&& CPUDef.INTFLAG.INTR ∧
      clearFlag f CPUDef.INTFLAG.HALT &&& CPUDef.INTFLAG.INTR = f &&& CPUDef.INTFLAG.INTR ∧
      setFlag f CPUDef.INTFLAG.INTR &&& CPUDef.INTFLAG.HALT = f &&& CPUDef.INTFLAG.HALT ∧
      clearFlag f CPUDef.INTFLAG.INTR &&& CPUDef.INTFLAG.HALT = f &&& CPUDef.INTFLAG.HALT) ∧
    (∀ f : Nat,
      setFlag f CPUDefPDP11.INTFLAG.HALT &&& CPUDefPDP11.INTFLAG.INTR
        = f &&& CPUDefPDP11.INTFLAG.INTR ∧
      clearFlag f CPUDefPDP11.INTFLAG.HALT &&& CPUDefPDP11.INTFLAG.INTR
        = f &&& CPUDefPDP11.INTFLAG.INTR ∧
      setFlag f CPUDefPDP11.INTFLAG.INTR &&& CPUDefPDP11.INTFLAG.HALT
        = f &&& CPUDefPDP11.INTFLAG.HALT ∧
      clearFlag f CPUDefPDP11.INTFLAG.INTR &&& CPUDefPDP11.INTFLAG.HALT
        = f &&& CPUDefPDP11.INTFLAG.HALT) := by
  refine ⟨by decide, by decide, ?_, ?_⟩
  · intro f
    obtain ⟨h1, h2⟩ := set_clear_frame f CPUDef.INTFLAG.HALT CPUDef.INTFLAG.INTR
      (by decide) (by decide)
    obtain ⟨h3, h4⟩ := set_clear_frame f CPUDef.INTFLAG.INTR CPUDef.INTFLAG.HALT
      (by decide) (by decide)
    exact ⟨h1, h2, h3, h4⟩
  · intro f
    obtain ⟨h1, h2⟩ := set_clear_frame f CPUDefPDP11.INTFLAG.HALT CPUDefPDP11.INTFLAG.INTR
      (by decide) (by decide)
    obtain ⟨h3, h4⟩ := set_clear_frame f CPUDefPDP11.INTFLAG.INTR CPUDefPDP11.INTFLAG.HALT
      (by decide) (by decide)
    exact ⟨h1, h2, h3, h4⟩

/-! ## Opcode and cycle tables -/

/-- C11, as stated, fails: CALL is a defined 8080 opcode (0xCD) without a cycle count in
CPUDef.CYCLES, and the PDP-11 variant, which defines HLT = 0x76, has no CYCLES table at all. -/
theorem call_has_no_cycle_count :
    CPUDef.OPCODE.lookup "CALL" = some 0xCD ∧ CPUDef.CYCLES.lookup "CALL" = none ∧
    ¬ (∀ e ∈ CPUDef.OPCODE, (CPUDef.CYCLES.lookup e.1).isSome = true) ∧
    CPUDefPDP11.OPCODE.lookup "HLT" = some 0x76 ∧ "CYCLES" ∉ CPUDefPDP11.keys := by
  decide

/-- C11, amended: on each target every opcode defined in the OPCODE table is a distinct byte
value in 0..255 under a distinct name.  Cycle counts are tabulated only in part: the 8080
CYCLES table is keyed by opcode name, every entry of it names a defined opcode, and it holds a
count for ACI (7) and for no other opcode; the PDP-11 variant defines no CYCLES table. -/
theorem opcode_tables_partial :
    ((∀ e ∈ CPUDef.OPCODE, e.2 < 256) ∧ (CPUDef.OPCODE.map Prod.snd).Nodup ∧
      (CPUDef.OPCODE.map Prod.fst).Nodup) ∧
    ((∀ e ∈ CPUDefPDP11.OPCODE, e.2 < 256) ∧ (CPUDefPDP11.OPCODE.map Prod.snd).Nodup ∧
      (CPUDefPDP11.OPCODE.map Prod.fst).Nodup) ∧
    (CPUDef.OPCODE.lookup "CALL" = some 0xCD ∧ CPUDefPDP11.OPCODE.lookup "HLT" = some 0x76) ∧
    ("CYCLES" ∈ CPUDef.keys ∧
      (∀ e ∈ CPUDef.CYCLES, (CPUDef.OPCODE.lookup e.1).isSome = true) ∧
      CPUDef.CYCLES.lookup "ACI" = some 7 ∧
      (∀ e ∈ CPUDef.OPCODE, e.1 ≠ "ACI" → CPUDef.CYCLES.lookup e.1 = none)) ∧
    "CYCLES" ∉ CPUDefPDP11.keys := by
  decide

/-! ## Operation flags -/

/-- C12: OPFLAG bits are independent.  NOREAD, NOWRITE and NOINTR are three pairwise distinct
single bits; for every opFlags value `f` and every two different flags `X`, `Y` among them,
(f | X) & Y = f & Y; the reset value 0 has none of the three set; and the eight subsets of
the three flags have pairwise distinct encodings. -/
theorem opflag_independent :
    (CPUDef.OPFLAG.NOREAD = 2 ^ 0 ∧ CPUDef.OPFLAG.NOWRITE = 2 ^ 1 ∧
      CPUDef.OPFLAG.NOINTR = 2 ^ 2) ∧
    (CPUDef.OPFLAG.NOREAD ≠ CPUDef.OPFLAG.NOWRITE ∧ CPUDef.OPFLAG.NOREAD ≠ CPUDef.OPFLAG.NOINTR ∧
      CPUDef.OPFLAG.NOWRITE ≠ CPUDef.OPFLAG.NOINTR) ∧
    (∀ X ∈ [CPUDef.OPFLAG.NOREAD, CPUDef.OPFLAG.NOWRITE, CPUDef.OPFLAG.NOINTR],
      ∀ Y ∈ [CPUDef.OPFLAG.NOREAD, CPUDef.OPFLAG.NOWRITE, CPUDef.OPFLAG.NOINTR],
      X ≠ Y → ∀ f : Nat, (f ||| X) &&& Y = f &&& Y) ∧
    (0 &&& CPUDef.OPFLAG.NOREAD = 0 ∧ 0 &&& CPUDef.OPFLAG.NOWRITE = 0 ∧
      0 &&& CPUDef.OPFLAG.NOINTR = 0) ∧
    (∀ r w i r2 w2 i2 : Bool,
      ((if r then CPUDef.OPFLAG.NOREAD else 0) ||| (if w then CPUDef.OPFLAG.NOWRITE else 0)
          ||| (if i then CPUDef.OPFLAG.NOINTR else 0))
        = ((if r2 then CPUDef.OPFLAG.NOREAD else 0) ||| (if w2 then CPUDef.OPFLAG.NOWRITE else 0)
          ||| (if i2 then CPUDef.OPFLAG.NOINTR else 0))
      → r = r2 ∧ w = w2 ∧ i = i2) := by
  refine ⟨by decide, by decide, ?_, by decide, by decide⟩
  intro X hX Y hY hne f
  have key : X &&& Y = 0 := by
    simp only [List.mem_cons, List.mem_singleton, List.not_mem_nil, or_false] at hX hY
    rcases hX with rfl | rfl | rfl <;> rcases hY with rfl | rfl | rfl <;>
      first
        | exact absurd rfl hne
        | decide
  rw [Nat.and_distrib_right, key, Nat.or_zero]

/-- Witness for C12: setting NOWRITE on the value 5 leaves the NOINTR bit as it reads. -/
theorem opflag_independent_witness :
    CPUDef.OPFLAG.NOWRITE ≠ CPUDef.OPFLAG.NOINTR ∧
    (5 ||| CPUDef.OPFLAG.NOWRITE) &&& CPUDef.OPFLAG.NOINTR = 5 &&& CPUDef.OPFLAG.NOINTR :=
  ⟨by decide, opflag_independent.2.2.1 CPUDef.OPFLAG.NOWRITE (by decide) CPUDef.OPFLAG.NOINTR
    (by decide) (by decide) 5⟩

/-! ## Signed overflow -/

/-- The OF expression is nonzero exactly when the bit below the size bit of
`rPS ^ rAO ^ (rPS >> 1)` is set. -/
theorem of_ne_zero_iff (rPS rAO k : Nat) :
    CPUDef.RESULT.OF rPS rAO (2 ^ (k + 1)) ≠ 0 ↔
      xor (xor (rPS.testBit k) (rAO.testBit k)) (rPS.testBit (k + 1)) = true := by
  have hsize : (2 ^ (k + 1)) >>> 1 = 2 ^ k := by
    rw [Nat.shiftRight_eq_div_pow, pow_succ]
    simp
  unfold CPUDef.RESULT.OF
  rw [hsize, Nat.and_two_pow, Nat.testBit_xor, Nat.testBit_xor, Nat.testBit_shiftRight,
    Nat.add_comm 1 k]
  cases xor (xor (rPS.testBit k) (rAO.testBit k)) (rPS.testBit (k + 1)) <;> simp

/-- Signed overflow of a byte addition, in terms of the OF expression. -/
theorem of_add_byte (a b c : Nat) (ha : a < 2 ^ 8) (hb : b < 2 ^ 8) (hc : c < 2) :
    CPUDef.RESULT.OF (a + b + c) (a ^^^ b) CPUDef.RESULT.SIZE_BYTE ≠ 0 ↔
      (toSigned 8 a + toSigned 8 b + (c : Int) < -(2 ^ (8 - 1)) ∨
        toSigned 8 a + toSigned 8 b + (c : Int) > 2 ^ (8 - 1) - 1) := by
  rw [show CPUDef.RESULT.SIZE_BYTE = 2 ^ (7 + 1) from rfl, of_ne_zero_iff, Nat.testBit_xor]
  simp only [Nat.testBit_to_div_mod, toSigned]
  norm_num at ha hb ⊢
  by_cases h1 : (a + b + c) / 128 % 2 = 1 <;> by_cases h2 : a / 128 % 2 = 1 <;>
    by_cases h3 : b / 128 % 2 = 1 <;> by_cases h4 : (a + b + c) / 256 % 2 = 1 <;>
    simp only [h1, h2, h3, h4, decide_True, decide_False] <;> split_ifs <;> simp <;> omega

/-- Signed overflow of a word addition, in terms of the OF expression. -/
theorem of_add_word (a b c : Nat) (ha : a < 2 ^ 16) (hb : b < 2 ^ 16) (hc : c < 2) :
    CPUDef.RESULT.OF (a + b + c) (a ^^^ b) CPUDef.RESULT.SIZE_WORD ≠ 0 ↔
      (toSigned 16 a + toSigned 16 b + (c : Int) < -(2 ^ (16 - 1)) ∨
        toSigned 16 a + toSigned 16 b + (c : Int) > 2 ^ (16 - 1) - 1) := by
  rw [show CPUDef.RESULT.SIZE_WORD = 2 ^ (15 + 1) from rfl, of_ne_zero_iff, Nat.testBit_xor]
  simp only [Nat.testBit_to_div_mod, toSigned]
  norm_num at ha hb ⊢
  by_cases h1 : (a + b + c) / 32768 % 2 = 1 <;> by_cases h2 : a / 32768 % 2 = 1 <;>
    by_cases h3 : b / 32768 % 2 = 1 <;> by_cases h4 : (a + b + c) / 65536 % 2 = 1 <;>
    simp only [h1, h2, h3, h4, decide_True, decide_False] <;> split_ifs <;> simp <;> omega

/-- C13: the documented OF formula computes signed overflow of an addition.  For resultSize
SIZE_BYTE (operand width n = 8) or SIZE_WORD (n = 16), operands `a`, `b` in 0..2^n - 1 and
carry-in `c` in 0..1, with resultParitySign = a + b + c (unmasked) and
resultAuxOverflow = a XOR b, the OF expression is nonzero iff the sum of `a` and `b` read as
n-bit two's-complement integers, plus `c`, lies outside -2^(n-1) .. 2^(n-1) - 1. -/
theorem of_is_signed_overflow (size n : Nat)
    (hsize : (size = CPUDef.RESULT.SIZE_BYTE ∧ n = 8) ∨ (size = CPUDef.RESULT.SIZE_WORD ∧ n = 16))
    (a b c : Nat) (ha : a < 2 ^ n) (hb : b < 2 ^ n) (hc : c < 2) :
    CPUDef.RESULT.OF (a + b + c) (a ^^^ b) size ≠ 0 ↔
      (toSigned n a + toSigned n b + (c : Int) < -(2 ^ (n - 1)) ∨
        toSigned n a + toSigned n b + (c : Int) > 2 ^ (n - 1) - 1) := by
  rcases hsize with ⟨rfl, rfl⟩ | ⟨rfl, rfl⟩
  · exact of_add_byte a b c ha hb hc
  · exact of_add_word a b c ha hb hc

/-- Witness for C13: 0x7F + 0x01 overflows as a signed byte addition (127 + 1 = 128), and the
OF expression is nonzero there. -/
theorem of_is_signed_overflow_witness :
    (0x7F < 2 ^ 8 ∧ 0x01 < 2 ^ 8 ∧ 0 < 2) ∧
    toSigned 8 0x7F + toSigned 8 0x01 + ((0 : Nat) : Int) > 2 ^ (8 - 1) - 1 ∧
    CPUDef.RESULT.OF (0x7F + 0x01 + 0) (0x7F ^^^ 0x01) CPUDef.RESULT.SIZE_BYTE ≠ 0 := by
  have hov : toSigned 8 0x7F + toSigned 8 0x01 + ((0 : Nat) : Int) > 2 ^ (8 - 1) - 1 := by
    decide
  exact ⟨by decide, hov,
    (of_is_signed_overflow CPUDef.RESULT.SIZE_BYTE 8 (Or.inl ⟨rfl, rfl⟩) 0x7F 0x01 0
      (by decide) (by decide) (by decide)).mpr (Or.inr hov)⟩

/-! ## The AUXOVF constants -/

/-- XORing a constant into the auxiliary register XORs its masked part into the result of a
formula of the shape `(rPS ^ rAO ^ sh) & m`. -/
theorem xor_aux_land (p x k sh m : Nat) :
    ((p ^^^ (x ^^^ k)) ^^^ sh) &&& m = (((p ^^^ x) ^^^ sh) &&& m) ^^^ (k &&& m) := by
  apply Nat.eq_of_testBit_eq
  intro i
  simp only [Nat.testBit_and, Nat.testBit_xor]
  cases p.testBit i <;> cases x.testBit i <;> cases k.testBit i <;> cases sh.testBit i <;>
    cases m.testBit i <;> rfl

/-- XORing a single bit into a value that is either zero or that bit inverts its
zero-ness. -/
theorem xor_bit_inverts (y k : Nat) (hy : y = 0 ∨ y = 2 ^ k) : y ^^^ 2 ^ k ≠ 0 ↔ y = 0 := by
  have hpos : 2 ^ k ≠ 0 := Nat.pos_iff_ne_zero.mp (Nat.two_pow_pos k)
  rcases hy with rfl | rfl
  · simp
  · simp [hpos]

/-- C14: the AUXOVF constants toggle exactly their own flag.  AUXOVF_AF = PS.AF = 0x10,
AUXOVF_OF = (SIZE_BYTE | SIZE_WORD) >> 1 and AUXOVF_CF = SIZE_BYTE | SIZE_WORD.  For
resultSize SIZE_BYTE or SIZE_WORD and all register values, XORing AUXOVF_AF into
resultAuxOverflow inverts the result of the AF formula and leaves the CF, PF, ZF, SF and OF
formulas unchanged; XORing AUXOVF_OF into resultAuxOverflow inverts the result of the OF
formula and leaves the CF, PF, AF, ZF and SF formulas unchanged. -/
theorem auxovf_toggles_own_flag :
    (CPUDef.RESULT.AUXOVF_AF = CPUDef.PS.AF ∧ CPUDef.RESULT.AUXOVF_AF = 0x10 ∧
      CPUDef.RESULT.AUXOVF_OF = (CPUDef.RESULT.SIZE_BYTE ||| CPUDef.RESULT.SIZE_WORD) >>> 1 ∧
      CPUDef.RESULT.AUXOVF_CF = CPUDef.RESULT.SIZE_BYTE ||| CPUDef.RESULT.SIZE_WORD) ∧
    (∀ r : CPUDef.DeferredResult,
      r.resultSize = CPUDef.RESULT.SIZE_BYTE ∨ r.resultSize = CPUDef.RESULT.SIZE_WORD →
      ∀ r2 : CPUDef.DeferredResult,
      r2 = { r with resultAuxOverflow := r.resultAuxOverflow ^^^ CPUDef.RESULT.AUXOVF_AF } →
        (CPUDef.RESULT.AF r2.resultParitySign r2.resultAuxOverflow ≠ 0 ↔
          CPUDef.RESULT.AF r.resultParitySign r.resultAuxOverflow = 0) ∧
        CPUDef.RESULT.AF r2.resultParitySign r2.resultAuxOverflow =
          CPUDef.RESULT.AF r.resultParitySign r.resultAuxOverflow ^^^ CPUDef.PS.AF ∧
        CPUDef.RESULT.CF r2.resultZeroCarry r2.resultSize =
          CPUDef.RESULT.CF r.resultZeroCarry r.resultSize ∧
        CPUDef.RESULT.PF r2.resultParitySign = CPUDef.RESULT.PF r.resultParitySign ∧
        CPUDef.RESULT.ZF r2.resultZeroCarry r2.resultSize =
          CPUDef.RESULT.ZF r.resultZeroCarry r.resultSize ∧
        CPUDef.RESULT.SF r2.resultParitySign r2.resultSize =
          CPUDef.RESULT.SF r.resultParitySign r.resultSize ∧
        CPUDef.RESULT.OF r2.resultParitySign r2.resultAuxOverflow r2.resultSize =
          CPUDef.RESULT.OF r.resultParitySign r.resultAuxOverflow r.resultSize) ∧
    (∀ r : CPUDef.DeferredResult,
      r.resultSize = CPUDef.RESULT.SIZE_BYTE ∨ r.resultSize = CPUDef.RESULT.SIZE_WORD →
      ∀ r2 : CPUDef.DeferredResult,
      r2 = { r with resultAuxOverflow := r.resultAuxOverflow ^^^ CPUDef.RESULT.AUXOVF_OF } →
        (CPUDef.RESULT.OF r2.resultParitySign r2.resultAuxOverflow r2.resultSize ≠ 0 ↔
          CPUDef.RESULT.OF r.resultParitySign r.resultAuxOverflow r.resultSize = 0) ∧
        CPUDef.RESULT.OF r2.resultParitySign r2.resultAuxOverflow r2.resultSize =
          CPUDef.RESULT.OF r.resultParitySign r.resultAuxOverflow r.resultSize
            ^^^ (r.resultSize >>> 1) ∧
        CPUDef.RESULT.CF r2.resultZeroCarry r2.resultSize =
          CPUDef.RESULT.CF r.resultZeroCarry r.resultSize ∧
        CPUDef.RESULT.PF r2.resultParitySign = CPUDef.RESULT.PF r.resultParitySign ∧
        CPUDef.RESULT.AF r2.resultParitySign r2.resultAuxOverflow =
          CPUDef.RESULT.AF r.resultParitySign r.resultAuxOverflow ∧
        CPUDef.RESULT.ZF r2.resultZeroCarry r2.resultSize =
          CPUDef.RESULT.ZF r.resultZeroCarry r.resultSize ∧
        CPUDef.RESULT.SF r2.resultParitySign r2.resultSize =
          CPUDef.RESULT.SF r.resultParitySign r.resultSize) := by
  refine ⟨by decide, ?_, ?_⟩
  · rintro ⟨rZC, rPS, rAO, size⟩ hsize r2 rfl
    simp only at hsize ⊢
    have haf : CPUDef.RESULT.AF rPS (rAO ^^^ CPUDef.RESULT.AUXOVF_AF)
        = CPUDef.RESULT.AF rPS rAO ^^^ CPUDef.PS.AF := by
      have h := xor_aux_land rPS rAO CPUDef.RESULT.AUXOVF_AF 0 0x0010
      simp only [Nat.xor_zero] at h
      exact h
    have hof : CPUDef.RESULT.OF rPS (rAO ^^^ CPUDef.RESULT.AUXOVF_AF) size
        = CPUDef.RESULT.OF rPS rAO size := by
      have h := xor_aux_land rPS rAO CPUDef.RESULT.AUXOVF_AF (rPS >>> 1) (size >>> 1)
      have hk : CPUDef.RESULT.AUXOVF_AF &&& (size >>> 1) = 0 := by
        rcases hsize with rfl | rfl <;> decide
      rw [hk, Nat.xor_zero] at h
      exact h
    refine ⟨?_, haf, trivial, trivial, trivial, trivial, hof⟩
    rw [haf]
    exact xor_bit_inverts _ 4 (land_two_pow_cases _ 4)
  · rintro ⟨rZC, rPS, rAO, size⟩ hsize r2 rfl
    simp only at hsize ⊢
    have hof : CPUDef.RESULT.OF rPS (rAO ^^^ CPUDef.RESULT.AUXOVF_OF) size
        = CPUDef.RESULT.OF rPS rAO size ^^^ (size >>> 1) := by
      have h := xor_aux_land rPS rAO CPUDef.RESULT.AUXOVF_OF (rPS >>> 1) (size >>> 1)
      have hk : CPUDef.RESULT.AUXOVF_OF &&& (size >>> 1) = size >>> 1 := by
        rcases hsize with rfl | rfl <;> decide
      rw [hk] at h
      exact h
    have haf : CPUDef.RESULT.AF rPS (rAO ^^^ CPUDef.RESULT.AUXOVF_OF)
        = CPUDef.RESULT.AF rPS rAO := by
      have h := xor_aux_land rPS rAO CPUDef.RESULT.AUXOVF_OF 0 0x0010
      simp only [Nat.xor_zero] at h
      have hk : CPUDef.RESULT.AUXOVF_OF &&& 0x0010 = 0 := by decide
      rw [hk, Nat.xor_zero] at h
      exact h
    refine ⟨?_, hof, trivial, trivial, haf, trivial, trivial⟩
    rw [hof]
    rcases hsize with rfl | rfl
    · exact xor_bit_inverts _ 7 (land_two_pow_cases _ 7)
    · exact xor_bit_inverts _ 15 (land_two_pow_cases _ 15)

/-- Witness for C14: on byte-sized registers with resultParitySign = 0x0F and
resultAuxOverflow = 0x01, where AF reads zero, XORing AUXOVF_AF in makes AF read nonzero. -/
theorem auxovf_toggles_own_flag_witness :
    ((⟨0x10, 0x0F, 0x01, CPUDef.RESULT.SIZE_BYTE⟩ : CPUDef.DeferredResult).resultSize
        = CPUDef.RESULT.SIZE_BYTE) ∧
    CPUDef.RESULT.AF 0x0F 0x01 = 0 ∧
    CPUDef.RESULT.AF 0x0F (0x01 ^^^ CPUDef.RESULT.AUXOVF_AF) ≠ 0 := by
  have h := (auxovf_toggles_own_flag.2.1 ⟨0x10, 0x0F, 0x01, CPUDef.RESULT.SIZE_BYTE⟩
    (Or.inl rfl) _ rfl).1
  exact ⟨rfl, by decide, h.mpr (by decide)⟩

/-! ## Panel bindings -/

/-- The outcomes of one guarded call. -/
theorem ask_cases {Control : Type} (comp : Option (SetBinding Control)) (who : Consulted)
    (sHTMLType : Option String) (sBinding : String) (control : Control) (sValue : Option String) :
    (comp = none ∧ PanelPDP11.ask comp who sHTMLType sBinding control sValue = (false, [])) ∨
    (∃ f, comp = some f ∧ f sHTMLType sBinding control sValue = true ∧
      PanelPDP11.ask comp who sHTMLType sBinding control sValue = (true, [who])) ∨
    (∃ f, comp = some f ∧ f sHTMLType sBinding control sValue = false ∧
      PanelPDP11.ask comp who sHTMLType sBinding control sValue = (false, [who])) := by
  cases comp with
  | none => exact Or.inl ⟨rfl, rfl⟩
  | some f =>
    cases h : f sHTMLType sBinding control sValue
    · exact Or.inr (Or.inr ⟨f, rfl, h, by simp [PanelPDP11.ask, h]⟩)
    · exact Or.inr (Or.inl ⟨f, rfl, h, by simp [PanelPDP11.ask, h]⟩)

/-- The source function agrees with "first acceptor wins, else the parent decides". -/
theorem setBinding_eq_firstAccepting {Control : Type} (DEBUGGER : Bool)
    (panel : PanelPDP11 Control) (sHTMLType : Option String) (sBinding : String)
    (control : Control) (sValue : Option String) :
    panel.setBinding DEBUGGER sHTMLType sBinding control sValue
      = PanelPDP11.firstAccepting panel.parent sHTMLType sBinding control sValue
        (PanelPDP11.candidates DEBUGGER panel) := by
  obtain ⟨cmp, cpu, dbg, parent⟩ := panel
  rcases ask_cases cmp Consulted.cmp sHTMLType sBinding control sValue with
    ⟨rfl, h1⟩ | ⟨f1, rfl, a1, h1⟩ | ⟨f1, rfl, a1, h1⟩ <;>
  rcases ask_cases cpu Consulted.cpu sHTMLType sBinding control sValue with
    ⟨rfl, h2⟩ | ⟨f2, rfl, a2, h2⟩ | ⟨f2, rfl, a2, h2⟩ <;>
  rcases ask_cases dbg Consulted.dbg sHTMLType sBinding control sValue with
    ⟨rfl, h3⟩ | ⟨f3, rfl, a3, h3⟩ | ⟨f3, rfl, a3, h3⟩ <;>
  cases DEBUGGER <;>
  simp [PanelPDP11.setBinding, PanelPDP11.candidates, PanelPDP11.firstAccepting, *]

/-- C15: PanelPDP11.setBinding passes the binding request to the Computer, then the CPU, then
(only when DEBUGGER is enabled) the Debugger, skipping any that is absent.  It returns true
as soon as one of them accepts, without consulting the later components or the parent
Component; when none accepts it returns exactly the result of the parent's setBinding.  So it
returns true iff some consulted component or the parent recognises the binding. -/
theorem setBinding_first_acceptor {Control : Type} (DEBUGGER : Bool)
    (panel : PanelPDP11 Control) (sHTMLType : Option String) (sBinding : String)
    (control : Control) (sValue : Option String) (out : Bool × List Consulted)
    (hout : out = panel.setBinding DEBUGGER sHTMLType sBinding control sValue) :
    out = PanelPDP11.firstAccepting panel.parent sHTMLType sBinding control sValue
      (PanelPDP11.candidates DEBUGGER panel) ∧
    out.2 <+: (PanelPDP11.candidates DEBUGGER panel).map Prod.fst ++ [Consulted.parent] ∧
    (∀ p ∈ out.2.dropLast, panel.recognises sHTMLType sBinding control sValue p = false) ∧
    (∃ p, out.2.getLast? = some p ∧
      out.1 = panel.recognises sHTMLType sBinding control sValue p) ∧
    (Consulted.parent ∈ out.2 ↔
      ∀ e ∈ PanelPDP11.candidates DEBUGGER panel,
        e.2 sHTMLType sBinding control sValue = false) ∧
    (Consulted.parent ∈ out.2 → out.1 = panel.parent sHTMLType sBinding control sValue) ∧
    (Consulted.parent ∉ out.2 → out.1 = true) ∧
    (out.1 = true ↔ ∃ p ∈ out.2, panel.recognises sHTMLType sBinding control sValue p = true) ∧
    (Consulted.dbg ∈ out.2 → DEBUGGER = true) := by
  subst hout
  refine ⟨setBinding_eq_firstAccepting DEBUGGER panel sHTMLType sBinding control sValue, ?_⟩
  obtain ⟨cmp, cpu, dbg, parent⟩ := panel
  rcases ask_cases cmp Consulted.cmp sHTMLType sBinding control sValue with
    ⟨rfl, h1⟩ | ⟨f1, rfl, a1, h1⟩ | ⟨f1, rfl, a1, h1⟩ <;>
  rcases ask_cases cpu Consulted.cpu sHTMLType sBinding control sValue with
    ⟨rfl, h2⟩ | ⟨f2, rfl, a2, h2⟩ | ⟨f2, rfl, a2, h2⟩ <;>
  rcases ask_cases dbg Consulted.dbg sHTMLType sBinding control sValue with
    ⟨rfl, h3⟩ | ⟨f3, rfl, a3, h3⟩ | ⟨f3, rfl, a3, h3⟩ <;>
  cases DEBUGGER <;>
  simp [PanelPDP11.setBinding, PanelPDP11.candidates, PanelPDP11.recognises, *]

/-- Witness for C15: with DEBUGGER enabled, no Computer, a CPU that rejects every request and
a Debugger that accepts the "debugInput" binding, the request is passed to the CPU and then
the Debugger, the parent is not consulted, and the result is true. -/
theorem setBinding_first_acceptor_witness :
    (PanelPDP11.mk (none : Option (SetBinding Unit)) (some (fun _ _ _ _ => false))
        (some (fun _ sBinding _ _ => sBinding == "debugInput"))
        (fun _ _ _ _ => false)).setBinding true none "debugInput" () none
      = (true, [Consulted.cpu, Consulted.dbg]) ∧
    (Consulted.parent ∉
        ((PanelPDP11.mk (none : Option (SetBinding Unit)) (some (fun _ _ _ _ => false))
          (some (fun _ sBinding _ _ => sBinding == "debugInput"))
          (fun _ _ _ _ => false)).setBinding true none "debugInput" () none).2 →
      ((PanelPDP11.mk (none : Option (SetBinding Unit)) (some (fun _ _ _ _ => false))
          (some (fun _ sBinding _ _ => sBinding == "debugInput"))
          (fun _ _ _ _ => false)).setBinding true none "debugInput" () none).1 = true) :=
  ⟨by decide,
    (setBinding_first_acceptor true
      (PanelPDP11.mk (none : Option (SetBinding Unit)) (some (fun _ _ _ _ => false))
        (some (fun _ sBinding _ _ => sBinding == "debugInput"))
        (fun _ _ _ _ => false))
      none "debugInput" () none _ rfl).2.2.2.2.2.2.1⟩
